import Mathlib

/-!
Verification development for `patreon_archiver/main.py`: a shallow embedding
of the pagination-and-dispatch pipeline (post classification, image-set and
generic persistence, cursor-following page walk, deduplication, batched
hand-off to the external downloader), together with theorems settling the
specification claims.

Conventions of the embedding:
* The filesystem is an association list from paths to contents; lookup finds
  the most recent binding, and `write_if_new` never shadows an existing path,
  so the list order is immaterial for the claims below.
* Network I/O is an oracle (`Session`): each `GET` either raises a transport
  error (`Except.error`) or returns a response (status code plus a body already
  shaped like the parsed JSON the code reads).  `requests` does NOT raise on a
  non-2xx status unless `raise_for_status` is called, and the embedding keeps
  that distinction.
* Every `write_if_new` call is recorded as a `WriteEvent` carrying whether the
  filesystem write was actually performed.
* Python truthiness of `Optional[str]` (`while next_uri:`) is `pyTruthy`.
-/

set_option autoImplicit false

namespace PatreonArchiver

/-- `post_metadata` of a post: the ordered image identifiers of an image post. -/
structure PostMetadata where
  image_order : List String
deriving DecidableEq, Repr

/-- `attributes` of a post record. -/
structure PostAttributes where
  post_type : String
  url : String
  post_metadata : PostMetadata
deriving DecidableEq, Repr

/-- One post record (`PostDataDict` in the source). -/
structure PostDataDict where
  id : String
  attributes : PostAttributes
deriving DecidableEq, Repr

/-- The `links` object of a page.  `next = none` means the key `'next'` is
absent (a lookup raises `KeyError`); `next = some none` means the key is
present with value `null`; `next = some (some s)` is a present string. -/
structure Links where
  next : Option (Option String)
deriving DecidableEq, Repr

/-- One page of posts (`PostsDict` in the source): `{data: Post[], links: {next?}}`. -/
structure PostsDict where
  data : List PostDataDict
  links : Links
deriving DecidableEq, Repr

/-- `image_urls` of an image sub-resource. -/
structure ImageUrls where
  original : String
deriving DecidableEq, Repr

/-- `attributes` of an image sub-resource. -/
structure ImageAttributes where
  mimetype : String
  image_urls : ImageUrls
deriving DecidableEq, Repr

/-- The `data` member of a media sub-resource response (`PostDataImageDict`). -/
structure PostDataImageDict where
  id : String
  attributes : ImageAttributes
deriving DecidableEq, Repr

/-- Response of `GET <MEDIA_URI>/<id>`: HTTP status and parsed `data` member. -/
structure MediaResponse where
  status : Nat
  data : PostDataImageDict
deriving DecidableEq, Repr

/-- Response of a binary image download: HTTP status and raw bytes. -/
structure BinResponse where
  status : Nat
  content : List Nat
deriving DecidableEq, Repr

/-- Response of a posts-page fetch: HTTP status and parsed page. -/
structure PageResponse where
  status : Nat
  body : PostsDict
deriving DecidableEq, Repr

/-- Exceptions that can unwind the run: a transport-level error raised by the
HTTP library, `requests.HTTPError` from `raise_for_status`, Python `KeyError`,
and `click.Abort`. -/
inductive Err where
  | transport (msg : String)
  | httpStatus (code : Nat)
  | keyError
  | abort
  | fileNotFound
deriving DecidableEq, Repr

/-- The HTTP session as an oracle: each kind of `GET` either raises a
transport error or returns the (already JSON-parsed) response. -/
structure Session where
  getPage : String → Except Err PageResponse
  getMedia : String → Except Err MediaResponse
  getBinary : String → Except Err BinResponse

/-- File contents: the pretty-printed JSON dump of a post
(`json.dumps(pdd, sort_keys=True, indent=2) + '\n'`), identified by the post
record it serialises, or raw bytes. -/
inductive Content where
  | postJson (pdd : PostDataDict)
  | bytes (b : List Nat)
deriving DecidableEq, Repr

/-- The filesystem: path/content bindings, most recent first. -/
def FS : Type := List (String × Content)

instance : DecidableEq FS := inferInstanceAs (DecidableEq (List (String × Content)))

instance : Repr FS := inferInstanceAs (Repr (List (String × Content)))

instance {ε α : Type} [DecidableEq ε] [DecidableEq α] : DecidableEq (Except ε α) :=
  fun a b =>
    match a, b with
    | .ok x, .ok y =>
      if h : x = y then .isTrue (by rw [h]) else .isFalse (by simp [h])
    | .ok _, .error _ => .isFalse (by simp)
    | .error _, .ok _ => .isFalse (by simp)
    | .error e, .error f =>
      if h : e = f then .isTrue (by rw [h]) else .isFalse (by simp [h])

/-- One `write_if_new` call: the target path, the content offered, and whether
the filesystem write was actually performed. -/
structure WriteEvent where
  path : String
  content : Content
  performed : Bool
deriving DecidableEq, Repr

/-- `SaveInfo` TypedDict of the source.  NOTE: as a Python `dict` its
iteration order is the key-insertion order `post_data_dict`, `target_dir`,
and iterating it yields those KEY STRINGS. -/
structure SaveInfo where
  post_data_dict : PostDataDict
  target_dir : String
deriving DecidableEq, Repr

/-- An item yielded by `process_posts`: a media-URI string or a `SaveInfo`. -/
inductive Yielded where
  | str (s : String)
  | info (si : SaveInfo)
deriving DecidableEq, Repr

/-- Modelled from the spec: the media sub-resource endpoint base URI
(`MEDIA_URI` lives in `constants.py`, which is not under `src/`); its concrete
value is irrelevant to every claim. -/
def MEDIA_URI : String := "https://www.patreon.com/api/media"

/-- Modelled from the spec: the posts endpoint base URI (`POSTS_URI` lives in
`constants.py`, which is not under `src/`); its concrete value is irrelevant
to every claim. -/
def POSTS_URI : String := "https://www.patreon.com/api/posts"

/-- Modelled from the spec: the first page request URI, i.e. `POSTS_URI`
together with the campaign-scoped query parameters produced by
`get_shared_params` (in `utils.py`, not under `src/`).  Only its dependence on
the campaign id matters. -/
def first_page_uri (campaign_id : String) : String :=
  POSTS_URI ++ "?campaign_id=" ++ campaign_id

/-- Modelled from the spec: `write_if_new` (in `utils.py`, not under `src/`):
the write is performed only when no file exists at the target path; an
existing file is left untouched whatever its content (first-write-wins,
§3 PersistedFile invariant). -/
def write_if_new (fs : FS) (path : String) (content : Content) : FS × WriteEvent :=
  match List.lookup path fs with
  | some _ => (fs, ⟨path, content, false⟩)
  | none => ((path, content) :: fs, ⟨path, content, true⟩)

/-- Modelled from the spec: `unique_iter` (in `utils.py`, not under `src/`):
each distinct value exactly once, in order of first occurrence (§4.2).
`seen` accumulates the values already emitted. -/
def uniqueGo (seen : List String) : List String → List String
  | [] => []
  | a :: l => if a ∈ seen then uniqueGo seen l else a :: uniqueGo (a :: seen) l

/-- Modelled from the spec: `unique_iter` on a fully-forced list. -/
def unique_iter (l : List String) : List String :=
  uniqueGo [] l

/-- Helper for `chunks`: contiguous batches of `n + 1` elements. -/
def chunksPos {α : Type} (n : Nat) : List α → List (List α)
  | [] => []
  | a :: l => (a :: l.take n) :: chunksPos n (l.drop n)
termination_by l => l.length
decreasing_by
  simp only [List.length_cons, List.length_drop]
  omega

/-- Modelled from the spec: `chunks` (in `utils.py`, not under `src/`):
partition a list into contiguous batches of at most `n` items, preserving
order (§4.5).  The batch size is positive in every use; `chunks 0` is `[]`. -/
def chunks {α : Type} (n : Nat) (l : List α) : List (List α) :=
  match n with
  | 0 => []
  | m + 1 => chunksPos m l

/-- Python f-string `f'{index:02d}'` for a natural number: zero-pad to (at
least) two digits. -/
def pad2 (n : Nat) : String :=
  if n < 10 then "0" ++ toString n else toString n

/-- Python truthiness of an `Optional[str]`: `None` and `''` are falsy. -/
def pyTruthy : Option String → Bool
  | none => false
  | some s => !(s == "")

/-- `Response.raise_for_status()`: raises `requests.HTTPError` exactly on a
4xx/5xx status code. -/
def raise_for_status (status : Nat) : Except Err Unit :=
  if 400 ≤ status then .error (.httpStatus status) else .ok ()

/-- Body of the `for index, id_ in enumerate(...image_order, start=1)` loop of
`save_images` (main.py lines 35-46): fetch the sub-resource record, fetch its
`original` image URL, `write_if_new` the binary content.  Neither `GET` is
followed by `raise_for_status`, so only transport errors unwind; the status
code of either response is ignored.  A transport error propagates (no local
`try`), leaving the writes made so far in place. -/
def save_images_loop (getExt : String → String) (s : Session) (dir : String) :
    List (Nat × String) → FS → List WriteEvent → FS × List WriteEvent × Except Err Unit
  | [], fs, evs => (fs, evs, .ok ())
  | (index, id_) :: rest, fs, evs =>
    match s.getMedia (MEDIA_URI ++ "/" ++ id_) with
    | .error e => (fs, evs, .error e)
    | .ok r =>
      let data := r.data
      match s.getBinary data.attributes.image_urls.original with
      | .error e => (fs, evs, .error e)
      | .ok r2 =>
        let path := dir ++ "/" ++ pad2 index ++ "-" ++ data.id ++ "." ++
          getExt data.attributes.mimetype
        let w := write_if_new fs path (.bytes r2.content)
        save_images_loop getExt s dir rest w.1 (evs ++ [w.2])

/-- `save_images` (main.py lines 27-47): ensure `images/<post.id>/`, write
`post.json`, then process `image_order` in order with 1-based indexing.
`Path('.', 'images', id)` renders as `images/<id>`.  The extension function is
`get_extension` from `utils.py`, passed in as a parameter. -/
def save_images (getExt : String → String) (s : Session) (fs : FS) (pdd : PostDataDict) :
    FS × List WriteEvent × Except Err SaveInfo :=
  let target_dir := "images/" ++ pdd.id
  let wr := write_if_new fs (target_dir ++ "/post.json") (.postJson pdd)
  match save_images_loop getExt s target_dir
      (List.enumFrom 1 pdd.attributes.post_metadata.image_order) wr.1 [wr.2] with
  | (fs2, evs, .ok _) => (fs2, evs, .ok ⟨pdd, target_dir⟩)
  | (fs2, evs, .error e) => (fs2, evs, .error e)

/-- `save_other` (main.py lines 50-58): ensure `other/`, write
`other/<post_type>-<post.id>.json`.  `Path('.', 'other')` renders as `other`. -/
def save_other (fs : FS) (pdd : PostDataDict) : FS × List WriteEvent × SaveInfo :=
  let wr := write_if_new fs
    ("other/" ++ pdd.attributes.post_type ++ "-" ++ pdd.id ++ ".json")
    (.postJson pdd)
  (wr.1, [wr.2], ⟨pdd, "other"⟩)

/-- `process_posts` (main.py lines 61-70), fully forced.  For an `image_file`
post the source executes `yield from save_images(...)`: `SaveInfo` is a
`TypedDict`, i.e. a `dict`, so `yield from` iterates it and yields its KEYS,
the strings `'post_data_dict'` and `'target_dir'` (in insertion order), not
the `SaveInfo` itself. -/
def process_posts (getExt : String → String) (s : Session) (fs : FS) :
    List PostDataDict → FS × List WriteEvent × Except Err (List Yielded)
  | [] => (fs, [], .ok [])
  | post :: rest =>
    if post.attributes.post_type ∈ ["audio_file", "audio_embed", "video_embed"] then
      let (fs1, evs, res) := process_posts getExt s fs rest
      (fs1, evs, res.map (fun ys => .str post.attributes.url :: ys))
    else if post.attributes.post_type == "image_file" then
      match save_images getExt s fs post with
      | (fs1, evs1, .error e) => (fs1, evs1, .error e)
      | (fs1, evs1, .ok _si) =>
        let (fs2, evs2, res) := process_posts getExt s fs1 rest
        (fs2, evs1 ++ evs2,
          res.map (fun ys => .str "post_data_dict" :: .str "target_dir" :: ys))
    else
      let (fs1, evs1, si) := save_other fs post
      let (fs2, evs2, res) := process_posts getExt s fs1 rest
      (fs2, evs1 ++ evs2, res.map (fun ys => .info si :: ys))

/-- The `isinstance(x, str)` filter of main.py lines 121-123 and 132-135: the
media-URI strings among the yielded items. -/
def collect_media (ys : List Yielded) : List String :=
  ys.filterMap (fun y => match y with | .str u => some u | .info _ => none)

/-- What the page walker does next after a page: fetch a cursor URI, stop
normally, or raise an uncaught `KeyError`. -/
inductive StepOutcome where
  | fetch (uri : String)
  | done
  | keyError
deriving DecidableEq, Repr

/-- Continuation handling after the FIRST page (main.py lines 124-127):
`next_uri = posts['links']['next']` with no `try`, so an absent key raises
`KeyError`; otherwise `while next_uri:` tests Python truthiness. -/
def firstPageNext (posts : PostsDict) : StepOutcome :=
  match posts.links.next with
  | none => .keyError
  | some v => if pyTruthy v then .fetch (v.getD "") else .done

/-- Continuation handling after a page fetched inside the loop (main.py lines
136-140): the lookup is wrapped in `try: ... except KeyError: next_uri = None`,
then `while next_uri:` tests truthiness. -/
def loopPageNext (posts : PostsDict) : StepOutcome :=
  match posts.links.next with
  | none => .done
  | some v => if pyTruthy v then .fetch (v.getD "") else .done

/-- The `while next_uri:` loop of main.py lines 127-140, with fuel for the
unbounded cursor chase.  Each iteration fetches the cursor URI,
`raise_for_status`, processes the page's posts, extends the media buffer, and
reads the next cursor under `try/except KeyError`. -/
def page_loop (getExt : String → String) (s : Session) :
    Nat → Option String → List String → FS → List WriteEvent →
    FS × List WriteEvent × Except Err (List String)
  | 0, next_uri, media, fs, evs =>
    if pyTruthy next_uri then (fs, evs, .error (.transport "fuel exhausted"))
    else (fs, evs, .ok media)
  | f + 1, next_uri, media, fs, evs =>
    if pyTruthy next_uri then
      match s.getPage (next_uri.getD "") with
      | .error e => (fs, evs, .error e)
      | .ok r =>
        match raise_for_status r.status with
        | .error e => (fs, evs, .error e)
        | .ok _ =>
          match process_posts getExt s fs r.body.data with
          | (fs1, evs1, .error e) => (fs1, evs ++ evs1, .error e)
          | (fs1, evs1, .ok ys) =>
            let media1 := media ++ collect_media ys
            match r.body.links.next with
            | none => page_loop getExt s f none media1 fs1 (evs ++ evs1)
            | some v => page_loop getExt s f v media1 fs1 (evs ++ evs1)
    else (fs, evs, .ok media)

/-- Outcome of the yt-dlp dispatch loop: batches actually passed to
`ydl.download`, log lines emitted by the loop itself, and whether
`click.Abort` was raised. -/
structure DispatchResult where
  dispatched : List (List String)
  logs : List String
  aborted : Bool
deriving DecidableEq, Repr

/-- The dispatch loop of main.py lines 150-156.  `download b = true` means the
`ydl.download` invocation succeeded; `false` means it raised.  On a raise the
`except` clause executes `if fail: raise click.Abort() from e` and nothing
else: with `fail` true the remaining batches are skipped; with `fail` false
the exception is swallowed without any logging statement and the loop
continues with the next batch. -/
def dispatch_batches (download : List String → Bool) (fail : Bool) :
    List (List String) → DispatchResult
  | [] => ⟨[], [], false⟩
  | b :: rest =>
    if download b then
      let r := dispatch_batches download fail rest
      ⟨b :: r.dispatched, r.logs, r.aborted⟩
    else if fail then
      ⟨[b], [], true⟩
    else
      let r := dispatch_batches download fail rest
      ⟨b :: r.dispatched, r.logs, r.aborted⟩

/-- Observable outcome of a run: final filesystem, all `write_if_new` events,
the batches handed to the downloader, the dispatch loop's own log lines, and
the overall result (an uncaught exception or normal completion). -/
structure RunOut where
  fs : FS
  events : List WriteEvent
  dispatched : List (List String)
  logs : List String
  result : Except Err Unit
deriving DecidableEq, Repr

/-- The network-and-dispatch portion of `main` (main.py lines 110-156),
starting from an empty filesystem: fetch the first page (with
`raise_for_status`), process it, read `posts['links']['next']` WITHOUT a
`try` (line 124), run the cursor loop, then deduplicate, chunk and dispatch
the collected media URIs. -/
def main_run (getExt : String → String) (s : Session) (download : List String → Bool)
    (fail : Bool) (yt_dlp_arg_limit : Nat) (campaign_id : String) (fuel : Nat) : RunOut :=
  match s.getPage (first_page_uri campaign_id) with
  | .error e => ⟨[], [], [], [], .error e⟩
  | .ok r =>
    match raise_for_status r.status with
    | .error e => ⟨[], [], [], [], .error e⟩
    | .ok _ =>
      match process_posts getExt s [] r.body.data with
      | (fs1, evs1, .error e) => ⟨fs1, evs1, [], [], .error e⟩
      | (fs1, evs1, .ok ys) =>
        let media := collect_media ys
        match r.body.links.next with
        | none => ⟨fs1, evs1, [], [], .error .keyError⟩
        | some v =>
          match page_loop getExt s fuel v media fs1 evs1 with
          | (fs2, evs2, .error e) => ⟨fs2, evs2, [], [], .error e⟩
          | (fs2, evs2, .ok allMedia) =>
            let d := dispatch_batches download fail
              (chunks yt_dlp_arg_limit (unique_iter allMedia))
            ⟨fs2, evs2, d.dispatched, d.logs,
              if d.aborted then .error .abort else .ok ()⟩

/-- Directory state for the output-directory setup: the set of existing
directories and the current working directory. -/
structure DirState where
  dirs : List String
  cwd : String
deriving DecidableEq, Repr

/-- Output-directory handling of `main` (main.py lines 106-109).  `makedirs`
is executed ONLY on the `output_dir is None` branch; `chdir` raises
`FileNotFoundError` when the target directory does not exist.
`Path('.', campaign_id)` renders as `campaign_id`. -/
def main_setup (output_dir : Option String) (campaign_id : String) (st : DirState) :
    Except Err DirState :=
  match output_dir with
  | none =>
    let d := campaign_id
    let dirs := if d ∈ st.dirs then st.dirs else d :: st.dirs
    .ok ⟨dirs, d⟩
  | some d =>
    if d ∈ st.dirs then .ok ⟨st.dirs, d⟩ else .error .fileNotFound

/-! ## Helper lemmas -/

theorem write_if_new_path_content (fs : FS) (p : String) (c : Content) :
    (write_if_new fs p c).2.path = p ∧ (write_if_new fs p c).2.content = c := by
  unfold write_if_new
  cases List.lookup p fs <;> simp

theorem mem_uniqueGo (x : String) (l : List String) : ∀ seen : List String,
    x ∈ uniqueGo seen l ↔ x ∈ l ∧ x ∉ seen := by
  induction l with
  | nil => intro seen; simp [uniqueGo]
  | cons a t ih =>
    intro seen
    by_cases h : a ∈ seen
    · rw [show uniqueGo seen (a :: t) = uniqueGo seen t from by simp [uniqueGo, h]]
      rw [ih seen]
      constructor
      · exact fun ⟨hx, hs⟩ => ⟨List.mem_cons_of_mem a hx, hs⟩
      · rintro ⟨hx, hs⟩
        rcases List.mem_cons.1 hx with rfl | hxt
        · exact absurd h hs
        · exact ⟨hxt, hs⟩
    · rw [show uniqueGo seen (a :: t) = a :: uniqueGo (a :: seen) t from by
        simp [uniqueGo, h]]
      constructor
      · intro hx
        rcases List.mem_cons.1 hx with rfl | hx2
        · exact ⟨List.mem_cons_self _ _, h⟩
        · rcases (ih (a :: seen)).1 hx2 with ⟨hxt, hxs⟩
          exact ⟨List.mem_cons_of_mem a hxt, fun hs => hxs (List.mem_cons_of_mem a hs)⟩
      · rintro ⟨hx, hs⟩
        by_cases hxa : x = a
        · subst hxa; exact List.mem_cons_self x _
        · rcases List.mem_cons.1 hx with h1 | hxt
          · exact absurd h1 hxa
          · refine List.mem_cons_of_mem a ((ih (a :: seen)).2 ⟨hxt, ?_⟩)
            intro hmem
            rcases List.mem_cons.1 hmem with h1 | h1
            · exact hxa h1
            · exact hs h1

theorem nodup_uniqueGo (l : List String) : ∀ seen : List String,
    (uniqueGo seen l).Nodup := by
  induction l with
  | nil => intro seen; simp [uniqueGo]
  | cons a t ih =>
    intro seen
    by_cases h : a ∈ seen
    · simpa [uniqueGo, if_pos h] using ih seen
    · simp only [uniqueGo, if_neg h, List.nodup_cons]
      refine ⟨fun hmem => ?_, ih (a :: seen)⟩
      exact ((mem_uniqueGo a t (a :: seen)).1 hmem).2 (List.mem_cons_self a seen)

theorem pairwise_mono_of_mem {α : Type} {R S : α → α → Prop} :
    ∀ l : List α, (∀ x ∈ l, ∀ y ∈ l, R x y → S x y) → l.Pairwise R → l.Pairwise S
  | [], _, _ => .nil
  | a :: t, h, hp => by
    rcases List.pairwise_cons.1 hp with ⟨ha, ht⟩
    refine List.Pairwise.cons
      (fun y hy => h a (List.mem_cons_self a t) y (List.mem_cons_of_mem a hy) (ha y hy)) ?_
    exact pairwise_mono_of_mem t
      (fun x hx y hy => h x (List.mem_cons_of_mem a hx) y (List.mem_cons_of_mem a hy)) ht

theorem pairwise_uniqueGo (l : List String) : ∀ seen : List String,
    (uniqueGo seen l).Pairwise (fun x y => l.indexOf x < l.indexOf y) := by
  induction l with
  | nil => intro seen; simp [uniqueGo]
  | cons a t ih =>
    intro seen
    by_cases h : a ∈ seen
    · simp only [uniqueGo, if_pos h]
      refine pairwise_mono_of_mem _ ?_ (ih seen)
      intro x hx y hy hr
      have hxa : a ≠ x := fun e => ((mem_uniqueGo x t seen).1 hx).2 (e ▸ h)
      have hya : a ≠ y := fun e => ((mem_uniqueGo y t seen).1 hy).2 (e ▸ h)
      rw [List.indexOf_cons_ne t hxa, List.indexOf_cons_ne t hya]
      exact Nat.succ_lt_succ hr
    · simp only [uniqueGo, if_neg h]
      refine List.Pairwise.cons ?_ ?_
      · intro y hy
        have hya : a ≠ y := fun e =>
          ((mem_uniqueGo y t (a :: seen)).1 hy).2 (e ▸ List.mem_cons_self a seen)
        rw [List.indexOf_cons_self, List.indexOf_cons_ne t hya]
        exact Nat.succ_pos _
      · refine pairwise_mono_of_mem _ ?_ (ih (a :: seen))
        intro x hx y hy hr
        have hxa : a ≠ x := fun e =>
          ((mem_uniqueGo x t (a :: seen)).1 hx).2 (e ▸ List.mem_cons_self a seen)
        have hya : a ≠ y := fun e =>
          ((mem_uniqueGo y t (a :: seen)).1 hy).2 (e ▸ List.mem_cons_self a seen)
        rw [List.indexOf_cons_ne t hxa, List.indexOf_cons_ne t hya]
        exact Nat.succ_lt_succ hr

theorem uniqueGo_of_nodup (l : List String) : ∀ seen : List String,
    l.Nodup → (∀ x ∈ l, x ∉ seen) → uniqueGo seen l = l := by
  induction l with
  | nil => intro seen _ _; rfl
  | cons a t ih =>
    intro seen hnd hdisj
    have ha : a ∉ seen := hdisj a (List.mem_cons_self a t)
    rw [List.nodup_cons] at hnd
    have ht : uniqueGo (a :: seen) t = t := by
      refine ih (a :: seen) hnd.2 ?_
      intro x hx hmem
      rcases List.mem_cons.1 hmem with h1 | h1
      · exact hnd.1 (h1 ▸ hx)
      · exact hdisj x (List.mem_cons_of_mem a hx) h1
    simp [uniqueGo, if_neg ha, ht]

theorem chunksPos_flatten {α : Type} (n : Nat) : ∀ l : List α, (chunksPos n l).flatten = l
  | [] => by simp [chunksPos]
  | a :: l => by
    simp only [chunksPos, List.flatten_cons]
    rw [chunksPos_flatten n (l.drop n)]
    simp [List.take_append_drop]
termination_by l => l.length
decreasing_by simp only [List.length_cons, List.length_drop]; omega

theorem chunksPos_le {α : Type} (n : Nat) : ∀ l : List α, ∀ c ∈ chunksPos n l, c.length ≤ n + 1
  | [] => by simp [chunksPos]
  | a :: l => by
    intro c hc
    simp only [chunksPos, List.mem_cons] at hc
    rcases hc with rfl | hc
    · simp only [List.length_cons, List.length_take]
      omega
    · exact chunksPos_le n (l.drop n) c hc
termination_by l => l.length
decreasing_by simp only [List.length_cons, List.length_drop]; omega

theorem chunksPos_length {α : Type} (n : Nat) :
    ∀ l : List α, (chunksPos n l).length = (l.length + n) / (n + 1)
  | [] => by
    simp only [chunksPos, List.length_nil, List.length, Nat.zero_add]
    exact (Nat.div_eq_of_lt (by omega)).symm
  | a :: l => by
    simp only [chunksPos, List.length_cons]
    rw [chunksPos_length n (l.drop n)]
    simp only [List.length_drop]
    have h2 : l.length + 1 + n = l.length + (n + 1) := by omega
    rw [h2, Nat.add_div_right _ (Nat.succ_pos n)]
    congr 1
    rcases Nat.le_total n l.length with h | h
    · rw [Nat.sub_add_cancel h]
    · have h1 : l.length - n = 0 := by omega
      rw [h1, Nat.zero_add, Nat.div_eq_of_lt (by omega), Nat.div_eq_of_lt (by omega)]
termination_by l => l.length
decreasing_by simp only [List.length_cons, List.length_drop]; omega

theorem dispatch_batches_continue (download : List String → Bool) :
    ∀ bs : List (List String),
      (dispatch_batches download false bs).dispatched = bs ∧
      (dispatch_batches download false bs).aborted = false ∧
      (dispatch_batches download false bs).logs = [] := by
  intro bs
  induction bs with
  | nil => simp [dispatch_batches]
  | cons b rest ih =>
    cases h : download b <;>
      simp [dispatch_batches, h, ih.1, ih.2.1, ih.2.2]

theorem dispatch_batches_abort (download : List String → Bool) :
    ∀ (pre : List (List String)) (b : List String) (post : List (List String)),
      (∀ x ∈ pre, download x = true) → download b = false →
      dispatch_batches download true (pre ++ b :: post) = ⟨pre ++ [b], [], true⟩ := by
  intro pre
  induction pre with
  | nil =>
    intro b post _ hb
    simp [dispatch_batches, hb]
  | cons p rest ih =>
    intro b post hpre hb
    have hp : download p = true := hpre p (List.mem_cons_self p rest)
    have hrest := ih b post (fun x hx => hpre x (List.mem_cons_of_mem p hx)) hb
    simp [dispatch_batches, hp, hrest]

theorem dispatch_batches_all_ok (download : List String → Bool) (fail : Bool) :
    ∀ bs : List (List String), (∀ b ∈ bs, download b = true) →
      (dispatch_batches download fail bs).dispatched = bs ∧
      (dispatch_batches download fail bs).aborted = false ∧
      (dispatch_batches download fail bs).logs = [] := by
  intro bs
  induction bs with
  | nil => intro _; simp [dispatch_batches]
  | cons b rest ih =>
    intro hall
    have hb : download b = true := hall b (List.mem_cons_self b rest)
    have hrest := ih fun x hx => hall x (List.mem_cons_of_mem b hx)
    simp [dispatch_batches, hb, hrest.1, hrest.2.1, hrest.2.2]

/-- Expected `(path, content)` pair for one `image_order` entry under a
session whose media and binary fetches always succeed with `m` and `b`. -/
def expectedImageWrite (getExt : String → String) (m : String → MediaResponse)
    (b : String → BinResponse) (dir : String) (q : Nat × String) : String × Content :=
  (dir ++ "/" ++ pad2 q.1 ++ "-" ++ (m (MEDIA_URI ++ "/" ++ q.2)).data.id ++ "." ++
     getExt (m (MEDIA_URI ++ "/" ++ q.2)).data.attributes.mimetype,
   Content.bytes (b ((m (MEDIA_URI ++ "/" ++ q.2)).data.attributes.image_urls.original)).content)

theorem save_images_loop_ok (getExt : String → String)
    (gp : String → Except Err PageResponse) (m : String → MediaResponse)
    (b : String → BinResponse) (dir : String) (pairs : List (Nat × String)) :
    ∀ (fs : FS) (evs : List WriteEvent),
      (save_images_loop getExt ⟨gp, fun u => .ok (m u), fun u => .ok (b u)⟩
          dir pairs fs evs).2.2 = .ok () ∧
      ((save_images_loop getExt ⟨gp, fun u => .ok (m u), fun u => .ok (b u)⟩
          dir pairs fs evs).2.1).map (fun e => (e.path, e.content)) =
        evs.map (fun e => (e.path, e.content)) ++
          pairs.map (expectedImageWrite getExt m b dir) := by
  induction pairs with
  | nil => intro fs evs; simp [save_images_loop]
  | cons q rest ih =>
    intro fs evs
    obtain ⟨i, id_⟩ := q
    have hev := write_if_new_path_content fs
      (dir ++ "/" ++ pad2 i ++ "-" ++ (m (MEDIA_URI ++ "/" ++ id_)).data.id ++ "." ++
        getExt (m (MEDIA_URI ++ "/" ++ id_)).data.attributes.mimetype)
      (.bytes (b ((m (MEDIA_URI ++ "/" ++ id_)).data.attributes.image_urls.original)).content)
    simp only [save_images_loop]
    refine ⟨(ih _ _).1, ?_⟩
    rw [(ih _ _).2]
    simp [expectedImageWrite, hev.1, hev.2]

theorem page_loop_falsy (getExt : String → String) (s : Session) (fuel : Nat)
    (v : Option String) (media : List String) (fs : FS) (evs : List WriteEvent)
    (h : pyTruthy v = false) :
    page_loop getExt s fuel v media fs evs = (fs, evs, .ok media) := by
  cases fuel <;> simp [page_loop, h]

theorem enumFrom_append {α : Type} : ∀ (xs ys : List α) (n : Nat),
    List.enumFrom n (xs ++ ys) =
      List.enumFrom n xs ++ List.enumFrom (n + xs.length) ys := by
  intro xs
  induction xs with
  | nil => intro ys n; simp [List.enumFrom]
  | cons x xs ih =>
    intro ys n
    simp only [List.cons_append, List.enumFrom, List.append_eq, List.length_cons]
    rw [ih]
    have h : n + 1 + xs.length = n + (xs.length + 1) := by omega
    rw [h]

theorem snd_mem_of_mem_enumFrom {α : Type} : ∀ (l : List α) (n : Nat) (q : Nat × α),
    q ∈ List.enumFrom n l → q.2 ∈ l := by
  intro l
  induction l with
  | nil => intro n q h; simp [List.enumFrom] at h
  | cons x xs ih =>
    intro n q h
    simp only [List.enumFrom, List.mem_cons] at h
    rcases h with rfl | h
    · exact List.mem_cons_self _ _
    · exact List.mem_cons_of_mem x (ih (n + 1) q h)

/-- If every sub-resource of the `done` batch fetches successfully and the
fetch for `idf` raises `e` (at the record lookup or at the binary download),
`save_images_loop` performs exactly one write per completed image, then stops
with `e` — the events already recorded (`evs` and the `done` writes) are kept,
nothing after `idf` is touched. -/
theorem save_images_loop_error_at (getExt : String → String) (s : Session)
    (dir : String) (e : Err) :
    ∀ (done : List (Nat × String)) (i : Nat) (idf : String)
      (rest : List (Nat × String)) (fs : FS) (evs : List WriteEvent),
      (∀ q ∈ done, ∃ r : MediaResponse, s.getMedia (MEDIA_URI ++ "/" ++ q.2) = .ok r ∧
        ∃ r2 : BinResponse, s.getBinary r.data.attributes.image_urls.original = .ok r2) →
      (s.getMedia (MEDIA_URI ++ "/" ++ idf) = .error e ∨
        ∃ r : MediaResponse, s.getMedia (MEDIA_URI ++ "/" ++ idf) = .ok r ∧
          s.getBinary r.data.attributes.image_urls.original = .error e) →
      ∃ (fs2 : FS) (tail : List WriteEvent),
        save_images_loop getExt s dir (done ++ (i, idf) :: rest) fs evs =
          (fs2, evs ++ tail, .error e) ∧ tail.length = done.length := by
  intro done
  induction done with
  | nil =>
    intro i idf rest fs evs _ hfail
    refine ⟨fs, [], ?_, rfl⟩
    rcases hfail with hm | ⟨r, hm, hb⟩
    · simp [save_images_loop, hm]
    · simp [save_images_loop, hm, hb]
  | cons q done ih =>
    intro i idf rest fs evs hpre hfail
    obtain ⟨j, idq⟩ := q
    obtain ⟨r, hr, r2, hr2⟩ := hpre (j, idq) (List.mem_cons_self _ _)
    obtain ⟨fs2, tail, hEq, hLen⟩ := ih i idf rest
      (write_if_new fs (dir ++ "/" ++ pad2 j ++ "-" ++ r.data.id ++ "." ++
        getExt r.data.attributes.mimetype) (.bytes r2.content)).1
      (evs ++ [(write_if_new fs (dir ++ "/" ++ pad2 j ++ "-" ++ r.data.id ++ "." ++
        getExt r.data.attributes.mimetype) (.bytes r2.content)).2])
      (fun q2 hq2 => hpre q2 (List.mem_cons_of_mem _ hq2)) hfail
    refine ⟨fs2,
      (write_if_new fs (dir ++ "/" ++ pad2 j ++ "-" ++ r.data.id ++ "." ++
        getExt r.data.attributes.mimetype) (.bytes r2.content)).2 :: tail, ?_, ?_⟩
    · simp only [List.cons_append, save_images_loop, hr, hr2, List.append_eq]
      rw [hEq]
      simp
    · simp [hLen]

/-! ## Concrete fixtures for counterexamples and witnesses -/

/-- Extension map standing in for `get_extension`. -/
def getExt0 : String → String := fun _ => "png"

/-- A fixed media sub-resource record. -/
def mData : PostDataImageDict := ⟨"m7", ⟨"image/png", ⟨"orig7"⟩⟩⟩

/-- A session whose sub-resource fetches always succeed with status 200. -/
def okSession : Session :=
  ⟨fun _ => .error (.transport "unused"),
   fun _ => .ok ⟨200, mData⟩,
   fun _ => .ok ⟨200, [7]⟩⟩

/-- A session whose sub-resource fetches return non-2xx statuses (with
well-formed bodies), raising no exception — as `requests` behaves when
`raise_for_status` is not called. -/
def badSession : Session :=
  ⟨fun _ => .error (.transport "unused"),
   fun _ => .ok ⟨404, mData⟩,
   fun _ => .ok ⟨500, [9]⟩⟩

/-- A session whose every fetch raises a transport error. -/
def errSession : Session :=
  ⟨fun _ => .error (.transport "down"),
   fun _ => .error (.transport "down"),
   fun _ => .error (.transport "down")⟩

/-- A session for whole-run fixtures: the posts endpoint returns an empty page
whose `links.next` is present and `null`. -/
def pageSession : Session :=
  ⟨fun _ => .ok ⟨200, ⟨[], ⟨some none⟩⟩⟩,
   fun _ => .error (.transport "unused"),
   fun _ => .error (.transport "unused")⟩

/-- A session that succeeds on sub-resource `imgA` (and its binary `orig7`)
and raises a transport error on everything else — in particular on `imgB`. -/
def mixSession : Session :=
  ⟨fun _ => .error (.transport "unused"),
   fun u => if u = MEDIA_URI ++ "/imgA" then .ok ⟨200, mData⟩
            else .error (.transport "down"),
   fun u => if u = "orig7" then .ok ⟨200, [7]⟩ else .error (.transport "down")⟩

/-- An `audio_embed` post. -/
def audioPost : PostDataDict := ⟨"a1", ⟨"audio_embed", "u1", ⟨[]⟩⟩⟩

/-- An `image_file` post with a single image. -/
def imagePost : PostDataDict := ⟨"p1", ⟨"image_file", "up1", ⟨["imgA"]⟩⟩⟩

/-- An `image_file` post with two images, the second of which the
`mixSession` fetches fail on. -/
def imagePost2 : PostDataDict := ⟨"p1", ⟨"image_file", "up1", ⟨["imgA", "imgB"]⟩⟩⟩

/-- A post of an unclassified type. -/
def otherPost : PostDataDict := ⟨"p2", ⟨"text_only", "up2", ⟨[]⟩⟩⟩

/-! ## Claim theorems -/

/-- C1: the spec claims that an `audio_file`/`audio_embed`/`video_embed` post
contributes exactly its url to the media buffer and causes no write, that an
`image_file` post writes under `images/<post.id>/` and contributes NO
MediaReference, and that any other post writes exactly one file under
`other/` and contributes nothing.  The code violates the `image_file` clause:
`yield from save_images(...)` (main.py line 68) iterates the returned
`SaveInfo` TypedDict — a `dict` — and so yields its KEYS, the strings
`'post_data_dict'` and `'target_dir'`, which pass the `isinstance(x, str)`
filter of lines 121-123 and are collected into the media buffer.  Concrete
evaluation of a page holding one post of each class shows the audio post
contributing `u1` and no write, the image post writing under `images/p1/` but
ALSO contributing the two key strings, and the other post writing exactly one
file under `other/` and contributing nothing. -/
theorem c1_image_file_pollutes_media_buffer :
    (process_posts getExt0 okSession [] [audioPost, imagePost, otherPost]).2.2 =
      .ok [.str "u1", .str "post_data_dict", .str "target_dir",
           .info ⟨otherPost, "other"⟩] ∧
    collect_media [.str "u1", .str "post_data_dict", .str "target_dir",
        .info ⟨otherPost, "other"⟩] = ["u1", "post_data_dict", "target_dir"] ∧
    ((process_posts getExt0 okSession [] [audioPost, imagePost, otherPost]).2.1).map
        (fun e => e.path) =
      ["images/p1/post.json", "images/p1/01-m7.png", "other/text_only-p2.json"] := by
  refine ⟨by decide, by decide, by decide⟩

/-- C4 counterexample: with the fail-fast flag false and a downloader raising
on every batch, both batches are still dispatched and the loop emits NO log
line — the `except` clause of main.py lines 154-156 contains no logging call
— contradicting the claim that the failure is logged. -/
theorem c4_failure_not_logged :
    dispatch_batches (fun _ => false) false [["u1"], ["u2"]] =
      ⟨[["u1"], ["u2"]], [], false⟩ := by decide

/-- C4 (amended): if a downloader invocation raises, then with the fail-fast
flag true the run aborts immediately after that batch and no further batch is
processed; with the flag false the failure is silently swallowed by the
dispatch loop (no log line is emitted by it) and every remaining batch is
still dispatched. -/
theorem c4_dispatch_failure_policy :
    (∀ (download : List String → Bool) (bs : List (List String)),
      (dispatch_batches download false bs).dispatched = bs ∧
      (dispatch_batches download false bs).aborted = false ∧
      (dispatch_batches download false bs).logs = []) ∧
    (∀ (download : List String → Bool) (pre : List (List String)) (b : List String)
        (post : List (List String)),
      (∀ x ∈ pre, download x = true) → download b = false →
      dispatch_batches download true (pre ++ b :: post) = ⟨pre ++ [b], [], true⟩) :=
  ⟨dispatch_batches_continue, dispatch_batches_abort⟩

/-- C4 witness: the amended policy applied at concrete inputs. -/
theorem c4_witness :
    (dispatch_batches (fun _ => false) false [["a"], ["b"]]).dispatched = [["a"], ["b"]] ∧
    ((∀ x ∈ ([["w"]] : List (List String)), (!(x == ["x"])) = true) ∧
      (!((["x"] : List String) == ["x"])) = false) ∧
    dispatch_batches (fun bb => !(bb == ["x"])) true ([["w"]] ++ ["x"] :: [["y"]]) =
      ⟨[["w"], ["x"]], [], true⟩ :=
  ⟨(c4_dispatch_failure_policy.1 (fun _ => false) [["a"], ["b"]]).1,
   ⟨by decide, by decide⟩,
   c4_dispatch_failure_policy.2 (fun bb => !(bb == ["x"])) [["w"]] ["x"] [["y"]]
     (by decide) (by decide)⟩

/-- C5 (spec-modelled `write_if_new`): writing the same `(path, content)` pair
twice performs exactly one filesystem write — the second call performs none
and returns the filesystem unchanged — and writing content `A` then `B ≠ A`
at the same path leaves `A` on disk (first-write-wins). -/
theorem c5_write_if_new_first_write_wins :
    ∀ (fs : FS) (p : String) (A B : Content), List.lookup p fs = none → A ≠ B →
      (write_if_new fs p A).2.performed = true ∧
      write_if_new (write_if_new fs p A).1 p A =
        ((write_if_new fs p A).1, ⟨p, A, false⟩) ∧
      List.lookup p (write_if_new (write_if_new fs p A).1 p B).1 = some A := by
  intro fs p A B h _
  have hcons : List.lookup p ((p, A) :: fs) = some A := by simp [List.lookup]
  refine ⟨?_, ?_, ?_⟩ <;> simp [write_if_new, h, hcons]

/-- C5 witness: the idempotence policy applied at a concrete path/content. -/
theorem c5_witness :
    List.lookup "f" ([] : FS) = none ∧ Content.bytes [1] ≠ Content.bytes [2] ∧
    ((write_if_new [] "f" (.bytes [1])).2.performed = true ∧
      write_if_new (write_if_new [] "f" (.bytes [1])).1 "f" (.bytes [1]) =
        ((write_if_new [] "f" (.bytes [1])).1, ⟨"f", .bytes [1], false⟩) ∧
      List.lookup "f"
          (write_if_new (write_if_new [] "f" (.bytes [1])).1 "f" (.bytes [2])).1 =
        some (.bytes [1])) :=
  ⟨rfl, by decide,
   c5_write_if_new_first_write_wins [] "f" (.bytes [1]) (.bytes [2]) rfl (by decide)⟩

/-- C6 (spec-modelled `chunks`, dispatch loop from main.py lines 150-153):
for batch size `L ≥ 1` the list is split into exactly `⌈M/L⌉` contiguous
batches of at most `L` items whose concatenation is the input, and when every
downloader invocation succeeds the dispatcher invokes the downloader once per
batch, in order. -/
theorem c6_chunks_partition :
    ∀ (l : List String) (n : Nat), 1 ≤ n →
      (chunks n l).length = (l.length + n - 1) / n ∧
      (∀ c ∈ chunks n l, c.length ≤ n) ∧
      (chunks n l).flatten = l ∧
      (∀ (download : List String → Bool) (fail : Bool),
        (∀ b ∈ chunks n l, download b = true) →
        (dispatch_batches download fail (chunks n l)).dispatched = chunks n l) := by
  intro l n hn
  obtain ⟨m, rfl⟩ : ∃ m, n = m + 1 := ⟨n - 1, by omega⟩
  have hchunks : chunks (m + 1) l = chunksPos m l := rfl
  refine ⟨?_, ?_, ?_, ?_⟩
  · have h1 : l.length + (m + 1) - 1 = l.length + m := by omega
    rw [hchunks, chunksPos_length, h1]
  · rw [hchunks]
    intro c hc
    have := chunksPos_le m l c hc
    omega
  · rw [hchunks]
    exact chunksPos_flatten m l
  · intro download f hall
    exact (dispatch_batches_all_ok download f (chunks (m + 1) l) hall).1

/-- C6 witness: the partition property applied at a concrete list and batch
size. -/
theorem c6_witness :
    1 ≤ 2 ∧ (chunks 2 ["a", "b", "c"]).length = (3 + 2 - 1) / 2 ∧
    (chunks 2 ["a", "b", "c"]).flatten = ["a", "b", "c"] :=
  ⟨by decide, (c6_chunks_partition ["a", "b", "c"] 2 (by decide)).1,
   (c6_chunks_partition ["a", "b", "c"] 2 (by decide)).2.2.1⟩

/-- C7 (spec-modelled `unique_iter`): the output contains each distinct value
of the input exactly once; membership is preserved; the output is ordered by
first occurrence in the input (indices of first occurrence are strictly
increasing along the output); and the deduplicator is idempotent. -/
theorem c7_unique_iter_spec :
    ∀ l : List String,
      (∀ x, x ∈ l → (unique_iter l).count x = 1) ∧
      (∀ x, x ∈ unique_iter l ↔ x ∈ l) ∧
      (unique_iter l).Pairwise (fun x y => l.indexOf x < l.indexOf y) ∧
      unique_iter (unique_iter l) = unique_iter l := by
  intro l
  have hmem : ∀ x, x ∈ unique_iter l ↔ x ∈ l := by
    intro x
    rw [unique_iter, mem_uniqueGo]
    simp
  have hnd : (unique_iter l).Nodup := nodup_uniqueGo l []
  refine ⟨?_, hmem, pairwise_uniqueGo l [], ?_⟩
  · intro x hx
    exact List.count_eq_one_of_mem hnd ((hmem x).2 hx)
  · exact uniqueGo_of_nodup (unique_iter l) [] hnd (by simp)

/-- C7 witness: the deduplicator contract applied at a concrete list. -/
theorem c7_witness :
    ("a" ∈ (["a", "b", "a"] : List String)) ∧
    (unique_iter ["a", "b", "a"]).count "a" = 1 ∧
    unique_iter (unique_iter ["a", "b", "a"]) = unique_iter ["a", "b", "a"] :=
  ⟨by decide, (c7_unique_iter_spec ["a", "b", "a"]).1 "a" (by decide),
   (c7_unique_iter_spec ["a", "b", "a"]).2.2.2⟩

/-- C9 counterexample: an explicit, not-yet-existing `--output-dir` path is
NOT created — `makedirs` sits inside the `output_dir is None` branch
(main.py lines 106-108) — so the subsequent `chdir` raises
`FileNotFoundError` instead of entering a freshly created directory. -/
theorem c9_explicit_output_dir_not_created :
    main_setup (some "out") "c" ⟨[], "/"⟩ = .error .fileNotFound := by decide

/-- C9 (amended): when `-o` alias `--output-dir` is not given the output directory
defaults to `./<campaign_id>` and is created if absent before the program
changes into it; an explicitly supplied path is NOT created — it must already
exist, otherwise changing into it fails. -/
theorem c9_output_dir_policy :
    (∀ (cid : String) (st : DirState), cid ∉ st.dirs →
      main_setup none cid st = .ok ⟨cid :: st.dirs, cid⟩) ∧
    (∀ (cid : String) (st : DirState), cid ∈ st.dirs →
      main_setup none cid st = .ok ⟨st.dirs, cid⟩) ∧
    (∀ (d cid : String) (st : DirState), d ∈ st.dirs →
      main_setup (some d) cid st = .ok ⟨st.dirs, d⟩) ∧
    (∀ (d cid : String) (st : DirState), d ∉ st.dirs →
      main_setup (some d) cid st = .error .fileNotFound) := by
  refine ⟨?_, ?_, ?_, ?_⟩
  · intro cid st h
    simp [main_setup, h]
  · intro cid st h
    simp [main_setup, h]
  · intro d cid st h
    simp [main_setup, h]
  · intro d cid st h
    simp [main_setup, h]

/-- C9 witness: the output-directory policy applied at concrete states. -/
theorem c9_witness :
    ("c" ∉ (⟨[], "/"⟩ : DirState).dirs) ∧
    main_setup none "c" ⟨[], "/"⟩ = .ok ⟨["c"], "c"⟩ ∧
    ("out" ∈ (⟨["out"], "/"⟩ : DirState).dirs) ∧
    main_setup (some "out") "c" ⟨["out"], "/"⟩ = .ok ⟨["out"], "out"⟩ :=
  ⟨by decide, c9_output_dir_policy.1 "c" ⟨[], "/"⟩ (by decide), by decide,
   c9_output_dir_policy.2.2.1 "out" "c" ⟨["out"], "/"⟩ (by decide)⟩

/-- C10 counterexample: a present-but-empty continuation value does terminate
the first page normally, but NOT "identically to the field being absent": on
the first page an absent `next` key raises `KeyError` (main.py line 124 has
no `try`), while the empty string terminates normally. -/
theorem c10_not_identical_on_first_page :
    firstPageNext ⟨[], ⟨some (some "")⟩⟩ = .done ∧
    firstPageNext ⟨[], ⟨none⟩⟩ = .keyError := by decide

/-- C10 (amended): a present but falsy continuation value (empty string or
null) terminates pagination normally on any page without fetching that cursor
value — the `while next_uri:` test fails — and this coincides with the
absent-field handling on pages fetched inside the loop; on the first page an
absent field instead raises. -/
theorem c10_falsy_next_terminates :
    (∀ (p : PostsDict) (v : Option String), p.links.next = some v →
      pyTruthy v = false → firstPageNext p = .done ∧ loopPageNext p = .done) ∧
    (∀ p : PostsDict, p.links.next = none → loopPageNext p = .done) ∧
    (∀ (getExt : String → String) (s : Session) (fuel : Nat) (v : Option String)
        (media : List String) (fs : FS) (evs : List WriteEvent),
      pyTruthy v = false →
      page_loop getExt s fuel v media fs evs = (fs, evs, .ok media)) := by
  refine ⟨?_, ?_, ?_⟩
  · intro p v h hv
    constructor
    · simp [firstPageNext, h, hv]
    · simp [loopPageNext, h, hv]
  · intro p h
    simp [loopPageNext, h]
  · intro getExt s fuel v media fs evs hv
    exact page_loop_falsy getExt s fuel v media fs evs hv

/-- C2 counterexample: the claim covers "every fetched page, including the
first page of a run", but on the first page `posts['links']['next']`
(main.py line 124) is read without a `try`: when the key is missing entirely
the walker raises `KeyError` instead of terminating normally. -/
theorem c2_first_page_missing_next_raises :
    firstPageNext ⟨[], ⟨none⟩⟩ = .keyError ∧
    firstPageNext ⟨[], ⟨none⟩⟩ ≠ .done := by decide

/-- C2 (amended): for pages fetched inside the loop, an absent continuation
field terminates pagination normally (the `KeyError` is caught); on the first
page the field must be PRESENT — a present null/falsy value terminates
normally, while a missing key raises.  When the first page terminates
pagination this way, the run proceeds to media dispatch over the collected,
deduplicated, chunked media references. -/
theorem c2_missing_next_termination :
    (∀ p : PostsDict, p.links.next = none → loopPageNext p = .done) ∧
    (∀ (p : PostsDict) (v : Option String), p.links.next = some v →
      pyTruthy v = false → firstPageNext p = .done) ∧
    (∀ (getExt : String → String) (s : Session) (download : List String → Bool)
        (fail : Bool) (limit : Nat) (cid : String) (fuel : Nat) (r : PageResponse)
        (fs1 : FS) (evs1 : List WriteEvent) (ys : List Yielded) (v : Option String),
      s.getPage (first_page_uri cid) = .ok r →
      raise_for_status r.status = .ok () →
      process_posts getExt s [] r.body.data = (fs1, evs1, .ok ys) →
      r.body.links.next = some v → pyTruthy v = false →
      main_run getExt s download fail limit cid fuel =
        ⟨fs1, evs1,
         (dispatch_batches download fail
           (chunks limit (unique_iter (collect_media ys)))).dispatched,
         (dispatch_batches download fail
           (chunks limit (unique_iter (collect_media ys)))).logs,
         if (dispatch_batches download fail
              (chunks limit (unique_iter (collect_media ys)))).aborted
         then .error .abort else .ok ()⟩) := by
  refine ⟨?_, ?_, ?_⟩
  · intro p h
    simp [loopPageNext, h]
  · intro p v h hv
    simp [firstPageNext, h, hv]
  · intro getExt s download fail limit cid fuel r fs1 evs1 ys v h1 h2 h3 h4 h5
    have hp := page_loop_falsy getExt s fuel v (collect_media ys) fs1 evs1 h5
    simp only [main_run, h1, h2, h3, h4, hp]

/-- C2 witness: the amended termination behaviour applied at concrete pages
and a concrete run whose single page carries a null continuation. -/
theorem c2_witness :
    loopPageNext ⟨[], ⟨none⟩⟩ = .done ∧
    firstPageNext ⟨[], ⟨some none⟩⟩ = .done ∧
    main_run getExt0 pageSession (fun _ => true) false 20 "c" 3 =
      ⟨[], [], [], [], .ok ()⟩ := by
  refine ⟨c2_missing_next_termination.1 ⟨[], ⟨none⟩⟩ rfl,
    c2_missing_next_termination.2.1 ⟨[], ⟨some none⟩⟩ none rfl rfl, ?_⟩
  have h := c2_missing_next_termination.2.2 getExt0 pageSession (fun _ => true)
    false 20 "c" 3 ⟨200, ⟨[], ⟨some none⟩⟩⟩ [] [] [] none rfl rfl rfl rfl rfl
  refine h.trans ?_
  simp [chunks, chunksPos, dispatch_batches, unique_iter, uniqueGo, collect_media]

/-- C3 counterexample: the claim says any non-2xx response status during
sub-resource processing aborts the run.  But `save_images` never calls
`raise_for_status` (main.py lines 38-46): with the sub-resource lookup
answering 404 and the binary download answering 500, `save_images` completes
normally and even writes the 500-response body as the image file. -/
theorem c3_non2xx_subresource_not_fatal :
    badSession.getMedia (MEDIA_URI ++ "/imgA") = .ok ⟨404, mData⟩ ∧
    badSession.getBinary "orig7" = .ok ⟨500, [9]⟩ ∧
    save_images getExt0 badSession [] imagePost =
      ([("images/p1/01-m7.png", .bytes [9]),
        ("images/p1/post.json", .postJson imagePost)],
       [⟨"images/p1/post.json", .postJson imagePost, true⟩,
        ⟨"images/p1/01-m7.png", .bytes [9], true⟩],
       .ok ⟨imagePost, "images/p1"⟩) := by
  refine ⟨rfl, rfl, by decide⟩

/-- C3 (amended): a transport-level failure (an exception raised by the HTTP
layer) at either sub-resource step — the record lookup or the binary download
— of ANY image of the set, after an arbitrary prefix of successfully fetched
images, is not caught locally: `save_images` aborts at once with that error,
with no retry and no partial-state cleanup — the `post.json` write and the
one write per already-completed image stay recorded, and no later image is
touched; non-2xx statuses, by contrast, are never checked on these
fetches. -/
theorem c3_transport_failure_propagates :
    ∀ (getExt : String → String) (s : Session) (fs : FS) (pdd : PostDataDict)
      (ids1 : List String) (idf : String) (ids2 : List String) (e : Err),
      pdd.attributes.post_metadata.image_order = ids1 ++ idf :: ids2 →
      (∀ idp ∈ ids1, ∃ r : MediaResponse, s.getMedia (MEDIA_URI ++ "/" ++ idp) = .ok r ∧
        ∃ r2 : BinResponse, s.getBinary r.data.attributes.image_urls.original = .ok r2) →
      (s.getMedia (MEDIA_URI ++ "/" ++ idf) = .error e ∨
        ∃ r : MediaResponse, s.getMedia (MEDIA_URI ++ "/" ++ idf) = .ok r ∧
          s.getBinary r.data.attributes.image_urls.original = .error e) →
      ∃ (fs2 : FS) (tail : List WriteEvent),
        save_images getExt s fs pdd =
          (fs2,
           (write_if_new fs ("images/" ++ pdd.id ++ "/post.json") (.postJson pdd)).2
             :: tail,
           .error e) ∧
        tail.length = ids1.length := by
  intro getExt s fs pdd ids1 idf ids2 e horder hpre hfail
  have hpre2 : ∀ q ∈ List.enumFrom 1 ids1,
      ∃ r : MediaResponse, s.getMedia (MEDIA_URI ++ "/" ++ q.2) = .ok r ∧
        ∃ r2 : BinResponse, s.getBinary r.data.attributes.image_urls.original = .ok r2 :=
    fun q hq => hpre q.2 (snd_mem_of_mem_enumFrom ids1 1 q hq)
  obtain ⟨fs2, tail, hEq, hLen⟩ :=
    save_images_loop_error_at getExt s ("images/" ++ pdd.id) e
      (List.enumFrom 1 ids1) (1 + ids1.length) idf
      (List.enumFrom (1 + ids1.length + 1) ids2)
      (write_if_new fs ("images/" ++ pdd.id ++ "/post.json") (.postJson pdd)).1
      [(write_if_new fs ("images/" ++ pdd.id ++ "/post.json") (.postJson pdd)).2]
      hpre2 hfail
  refine ⟨fs2, tail, ?_, ?_⟩
  · simp only [save_images, horder]
    rw [enumFrom_append]
    rw [show List.enumFrom (1 + ids1.length) (idf :: ids2) =
        (1 + ids1.length, idf) :: List.enumFrom (1 + ids1.length + 1) ids2 from rfl]
    rw [hEq]
    simp
  · rw [hLen, List.enumFrom_length]

/-- C3 witness: transport-failure propagation applied after one successfully
persisted image — the session fetches `imgA` fine and raises on `imgB`; the
`post.json` and `01-m7.png` writes remain, and the loop stops with the
error. -/
theorem c3_witness :
    imagePost2.attributes.post_metadata.image_order = ["imgA"] ++ "imgB" :: [] ∧
    mixSession.getMedia (MEDIA_URI ++ "/" ++ "imgB") = .error (.transport "down") ∧
    (∃ (fs2 : FS) (tail : List WriteEvent),
      save_images getExt0 mixSession [] imagePost2 =
        (fs2,
         (write_if_new [] ("images/" ++ imagePost2.id ++ "/post.json")
           (.postJson imagePost2)).2 :: tail,
         .error (.transport "down")) ∧
      tail.length = (["imgA"] : List String).length) := by
  refine ⟨rfl, by decide, ?_⟩
  refine c3_transport_failure_propagates getExt0 mixSession [] imagePost2
    ["imgA"] "imgB" [] (.transport "down") rfl ?_ ?_
  · intro idp hidp
    rcases List.mem_singleton.1 hidp with rfl
    exact ⟨⟨200, mData⟩, by decide, ⟨200, [7]⟩, by decide⟩
  · exact Or.inl (by decide)

/-- C8: for every image-set post processed under a session whose sub-resource
fetches succeed, the `image_order` identifiers are processed in the given
order with 1-based indexing, and each binary content is targeted at
`images/<post.id>/<NN>-<subresource.id>.<ext>` where `NN` is the index
zero-padded to two digits (`pad2`) and `<ext>` comes from the sub-resource's
mime type; `post.json` is written first. -/
theorem c8_save_images_order_and_paths :
    ∀ (getExt : String → String) (gp : String → Except Err PageResponse)
      (m : String → MediaResponse) (b : String → BinResponse) (fs : FS)
      (pdd : PostDataDict),
      (save_images getExt ⟨gp, fun u => .ok (m u), fun u => .ok (b u)⟩ fs pdd).2.2 =
        .ok ⟨pdd, "images/" ++ pdd.id⟩ ∧
      ((save_images getExt ⟨gp, fun u => .ok (m u), fun u => .ok (b u)⟩ fs pdd).2.1).map
          (fun e => (e.path, e.content)) =
        ("images/" ++ pdd.id ++ "/post.json", Content.postJson pdd) ::
          (List.enumFrom 1 pdd.attributes.post_metadata.image_order).map
            (expectedImageWrite getExt m b ("images/" ++ pdd.id)) := by
  intro getExt gp m b fs pdd
  have hev := write_if_new_path_content fs
    ("images/" ++ pdd.id ++ "/post.json") (.postJson pdd)
  have h := save_images_loop_ok getExt gp m b ("images/" ++ pdd.id)
    (List.enumFrom 1 pdd.attributes.post_metadata.image_order)
    (write_if_new fs ("images/" ++ pdd.id ++ "/post.json") (.postJson pdd)).1
    [(write_if_new fs ("images/" ++ pdd.id ++ "/post.json") (.postJson pdd)).2]
  rcases hL : save_images_loop getExt ⟨gp, fun u => .ok (m u), fun u => .ok (b u)⟩
      ("images/" ++ pdd.id)
      (List.enumFrom 1 pdd.attributes.post_metadata.image_order)
      (write_if_new fs ("images/" ++ pdd.id ++ "/post.json") (.postJson pdd)).1
      [(write_if_new fs ("images/" ++ pdd.id ++ "/post.json") (.postJson pdd)).2]
    with ⟨fs2, evs2, res⟩
  rw [hL] at h
  obtain ⟨h1, h2⟩ := h
  simp only at h1 h2
  subst h1
  simp only [save_images]
  rw [hL]
  constructor
  · rfl
  · simp only
    rw [h2]
    simp [hev.1, hev.2]

/-- C10 witness: falsy-continuation termination applied at concrete pages. -/
theorem c10_witness :
    ((⟨[], ⟨some (some "")⟩⟩ : PostsDict).links.next = some (some "") ∧
      pyTruthy (some "") = false) ∧
    firstPageNext ⟨[], ⟨some (some "")⟩⟩ = .done ∧
    page_loop getExt0 okSession 5 (some "") ["u"] [] [] = ([], [], .ok ["u"]) :=
  ⟨⟨rfl, rfl⟩,
   (c10_falsy_next_terminates.1 ⟨[], ⟨some (some "")⟩⟩ (some "") rfl rfl).1,
   c10_falsy_next_terminates.2.2 getExt0 okSession 5 (some "") ["u"] [] [] rfl⟩

end PatreonArchiver
